import Mathlib

/-!
Verification of the core algorithmic content of `data_cube_ui`'s two app model
files, `apps/cloud_coverage/models.py` and `apps/spectral_anomaly/models.py`:
the incremental clear-pixel accumulator (`clear_percentage` closure), the
metadata merge (`combine_metadata`), the summary emission
(`metadata_from_dict`, `final_metadata_from_dataset`) and the compositing
strategy dispatch (`get_processing_method`, `get_reverse_time`).

Modelling conventions:
* a raster location `(lat, lon)` is a pair of naturals (`Pos`);
* a chunk's boolean clean mask (numpy array of shape time × lat × lon) is a
  list over the time axis of per-location boolean functions;
* numpy elementwise integer division producing `nan`/`inf` when the
  denominator is zero (it warns, it does not raise) is modelled by
  `Option ℚ`: `none` stands for the undefined float value;
* a python `dict` is a list of key/value pairs whose keys are pairwise
  distinct, in insertion order.
-/

namespace CloudCoverage

/-- A raster location `(latitude index, longitude index)`. -/
def Pos : Type := Nat × Nat

/-- Input of one accumulator step, as used by the `clear_percentage` closure
in `cloud_coverage/models.py`: the dataset contributes only `len(dataset_in.time)`
(`time_len` here) and the clean mask is a per-time-slice boolean field. -/
structure Chunk where
  time_len : Nat
  clean_mask : List (Pos → Bool)

/-- `np.sum(clean_mask.astype(np.int8), axis=0)` at one location: the number
of time slices whose mask bit is set there.  (numpy's `sum` of `int8` data
promotes to the platform integer, so no 8-bit overflow occurs.) -/
def num_clear (clean_mask : List (Pos → Bool)) (p : Pos) : Nat :=
  clean_mask.countP (fun f => f p)

/-- numpy elementwise division of two integer fields.  When the denominator
is zero numpy emits a RuntimeWarning and produces `nan` (or `inf`), not an
exception; that undefined value is `none` here. -/
def np_div (a b : Nat) : Option ℚ :=
  if b = 0 then none else some ((a : ℚ) / (b : ℚ))

/-- The accumulator state built by the `clear_percentage` closure: the
`total_pixels`, `total_clear` and `clear_percentage` data variables of the
intermediate xarray dataset, each an elementwise field over locations. -/
structure IntermediateProduct where
  total_pixels : Pos → Nat
  total_clear : Pos → Nat
  clear_percentage : Pos → Option ℚ

/-- The `clear_percentage` closure of `cloud_coverage/models.py`
(`Query.get_processing_method`): with no intermediate product, build one with
`total_pixels` the broadcast acquisition count and `total_clear` the per-pixel
mask sum; otherwise add both in; in either case recompute `clear_percentage`
as the elementwise quotient. -/
def clear_percentage (c : Chunk) (intermediate_product : Option IntermediateProduct) :
    IntermediateProduct :=
  let num_acq := c.time_len
  match intermediate_product with
  | none =>
    ⟨fun _ => num_acq,
     fun p => num_clear c.clean_mask p,
     fun p => np_div (num_clear c.clean_mask p) num_acq⟩
  | some ip =>
    ⟨fun p => ip.total_pixels p + num_acq,
     fun p => ip.total_clear p + num_clear c.clean_mask p,
     fun p => np_div (ip.total_clear p + num_clear c.clean_mask p)
                     (ip.total_pixels p + num_acq)⟩

/-- Chunk 1 of the spec's scenario: 3 acquisitions, all clear everywhere. -/
def scenarioChunk1 : Chunk :=
  ⟨3, [fun _ => true, fun _ => true, fun _ => true]⟩

/-- Chunk 2 of the spec's scenario: 2 acquisitions, exactly 1 clear at every
location (clear in the first slice, cloudy in the second). -/
def scenarioChunk2 : Chunk :=
  ⟨2, [fun _ => true, fun _ => false]⟩

/-- Running the scenario: chunk 1 with no prior state, then chunk 2 on top. -/
def scenarioFinal : IntermediateProduct :=
  clear_percentage scenarioChunk2 (some (clear_percentage scenarioChunk1 none))

/-- C1: the accumulator update.  With no prior state, `total_pixels` is the
broadcast acquisition count and `total_clear` the per-location mask sum over
time; with a prior state both are added in.  The spec scenario (3 all-clear
acquisitions, then 2 acquisitions with 1 clear) tallies `total_pixels = 5`,
`total_clear = 4`, `clear_percentage = 0.8` at pixel `(0,0)`. -/
theorem clear_percentage_update_spec :
    (∀ (c : Chunk) (p : Pos),
      (clear_percentage c none).total_pixels p = c.time_len ∧
      (clear_percentage c none).total_clear p = num_clear c.clean_mask p) ∧
    (∀ (c : Chunk) (ip : IntermediateProduct) (p : Pos),
      (clear_percentage c (some ip)).total_pixels p = ip.total_pixels p + c.time_len ∧
      (clear_percentage c (some ip)).total_clear p
        = ip.total_clear p + num_clear c.clean_mask p) ∧
    (scenarioFinal.total_pixels (0, 0) = 5 ∧
     scenarioFinal.total_clear (0, 0) = 4 ∧
     scenarioFinal.clear_percentage (0, 0) = some (4 / 5)) := by
  refine ⟨fun c p => ⟨rfl, rfl⟩, fun c ip p => ⟨rfl, rfl⟩, rfl, rfl, ?_⟩
  show np_div 4 5 = some (4 / 5)
  norm_num [np_div]

/-- C2 counterexample: the code does not guard the division.  Updating with a
chunk of zero acquisitions and no prior state yields `total_pixels = 0`
everywhere, and `clear_percentage` there is numpy's undefined `0/0` value
(modelled `none`), not `0`. -/
theorem clear_percentage_zero_div_counterexample :
    (clear_percentage ⟨0, []⟩ none).total_pixels (0, 0) = 0 ∧
    (clear_percentage ⟨0, []⟩ none).clear_percentage (0, 0) ≠ some 0 ∧
    (clear_percentage ⟨0, []⟩ none).clear_percentage (0, 0) = none := by
  refine ⟨rfl, ?_, rfl⟩
  intro h
  simp [clear_percentage, np_div, num_clear] at h

/-- C2 amended: after every update, at every location with a non-zero pixel
total, `clear_percentage` equals `total_clear / total_pixels`; at a location
whose pixel total is zero the unguarded division produces numpy's undefined
value (`nan`, modelled `none`) — no exception is raised, but the value is not
`0`. -/
theorem clear_percentage_division_spec (c : Chunk)
    (prior : Option IntermediateProduct) (p : Pos) :
    ((clear_percentage c prior).total_pixels p ≠ 0 →
      (clear_percentage c prior).clear_percentage p
        = some (((clear_percentage c prior).total_clear p : ℚ)
                 / ((clear_percentage c prior).total_pixels p : ℚ))) ∧
    ((clear_percentage c prior).total_pixels p = 0 →
      (clear_percentage c prior).clear_percentage p = none) := by
  cases prior with
  | none =>
    constructor
    · intro h
      have h' : c.time_len ≠ 0 := by simpa [clear_percentage] using h
      simp [clear_percentage, np_div, h']
    · intro h
      have h' : c.time_len = 0 := by simpa [clear_percentage] using h
      simp [clear_percentage, np_div, h']
  | some ip =>
    constructor
    · intro h
      have h' : ip.total_pixels p + c.time_len ≠ 0 := by
        simpa [clear_percentage] using h
      simp [clear_percentage, np_div, h']
      omega
    · intro h
      have h' : ip.total_pixels p + c.time_len = 0 := by
        simpa [clear_percentage] using h
      simp [clear_percentage, np_div, h']
      omega

/-- Witness for the amended C2: a concrete one-acquisition all-clear chunk has
pixel total `1 ≠ 0` and percentage `1/1 = 1`. -/
theorem clear_percentage_division_spec_witness :
    (clear_percentage ⟨1, [fun _ => true]⟩ none).clear_percentage (0, 0)
      = some ((1 : ℚ) / (1 : ℚ)) := by
  have h := (clear_percentage_division_spec ⟨1, [fun _ => true]⟩ none (0, 0)).1
    (by simp [clear_percentage])
  exact h

/-- Running a sequence of accumulator updates, threading the state through as
the task driver does (`None` before the first chunk). -/
def run_updates : List Chunk → Option IntermediateProduct → Option IntermediateProduct
  | [], st => st
  | c :: cs, st => run_updates cs (some (clear_percentage c st))

/-- The per-state invariant of C3. -/
def ClearInv (ip : IntermediateProduct) : Prop :=
  ∀ p : Pos, ip.total_clear p ≤ ip.total_pixels p

/-- One update preserves the invariant, provided the chunk's mask has exactly
one slice per acquisition (the same-shape precondition). -/
theorem clear_percentage_preserves_inv (c : Chunk)
    (hshape : c.clean_mask.length = c.time_len)
    (prior : Option IntermediateProduct)
    (hprior : ∀ ip, prior = some ip → ClearInv ip) :
    ClearInv (clear_percentage c prior) := by
  have hmask : ∀ p : Pos, num_clear c.clean_mask p ≤ c.time_len := fun p =>
    hshape ▸ List.countP_le_length _
  cases prior with
  | none => exact fun p => hmask p
  | some ip => exact fun p => Nat.add_le_add (hprior ip rfl p) (hmask p)

/-- C3: for every sequence of updates in which each chunk's clean mask has
one slice per time acquisition, every state the fold reaches satisfies
`total_clear ≤ total_pixels` at every location (`0 ≤ total_clear` holds by
typing: the counts are naturals).  Quantifying over all chunk sequences
covers the state after every intermediate update as well. -/
theorem clear_percentage_invariant (cs : List Chunk)
    (hshape : ∀ c ∈ cs, c.clean_mask.length = c.time_len)
    (st : IntermediateProduct) (hrun : run_updates cs none = some st) :
    ∀ p : Pos, st.total_clear p ≤ st.total_pixels p := by
  suffices H : ∀ (cs : List Chunk), (∀ c ∈ cs, c.clean_mask.length = c.time_len) →
      ∀ (st0 : Option IntermediateProduct), (∀ ip, st0 = some ip → ClearInv ip) →
      ∀ st1, run_updates cs st0 = some st1 → ClearInv st1 by
    exact H cs hshape none (by simp) st hrun
  intro cs
  induction cs with
  | nil =>
    intro _ st0 h0 st1 h1
    exact h0 st1 h1
  | cons c rest ih =>
    intro hs st0 h0 st1 h1
    refine ih (fun c hc => hs c (List.mem_cons_of_mem _ hc)) _ ?_ st1 h1
    intro ip hip
    have : ip = clear_percentage c st0 := by
      simpa using hip.symm
    subst this
    exact clear_percentage_preserves_inv c (hs c (List.mem_cons_self c rest)) st0 h0

/-- Witness for C3 at the spec scenario's two chunks. -/
theorem clear_percentage_invariant_witness :
    scenarioFinal.total_clear (1, 2) ≤ scenarioFinal.total_pixels (1, 2) := by
  have h := clear_percentage_invariant [scenarioChunk1, scenarioChunk2]
    (by intro c hc
        simp only [List.mem_cons, List.not_mem_nil, or_false] at hc
        rcases hc with h | h <;> subst h <;> rfl)
    scenarioFinal rfl
  exact h (1, 2)

/-- C7: the empty chunk (zero time slices, empty clean mask) applied to an
existing state leaves both totals unchanged at every location: it is an
identity element of the update fold on the tallies. -/
theorem empty_chunk_identity (ip : IntermediateProduct) (p : Pos) :
    (clear_percentage ⟨0, []⟩ (some ip)).total_pixels p = ip.total_pixels p ∧
    (clear_percentage ⟨0, []⟩ (some ip)).total_clear p = ip.total_clear p := by
  constructor
  · show ip.total_pixels p + 0 = ip.total_pixels p
    exact Nat.add_zero _
  · show ip.total_clear p + num_clear [] p = ip.total_clear p
    simp [num_clear]

/-- An acquisition key: the millisecond-precision timestamp used as the
metadata dictionary key (`dataset.time.values.astype('M8[ms]')`), kept as its
calendar fields plus the millisecond of the day. -/
structure AcqKey where
  year : Nat
  month : Nat
  day : Nat
  ms_of_day : Nat
deriving DecidableEq

instance : Inhabited AcqKey := ⟨⟨0, 0, 0, 0⟩⟩

/-- The chronological encoding of an acquisition key: for calendar-valid
fields (`1 ≤ month ≤ 12`, `1 ≤ day ≤ 31`, `ms_of_day < 86400000`) this is
strictly monotone in the lexicographic (year, month, day, time-of-day) order,
i.e. python's comparison of the datetime keys. -/
def AcqKey.toNat (k : AcqKey) : Nat :=
  ((k.year * 13 + k.month) * 32 + k.day) * 86400000 + k.ms_of_day

/-- The running metadata: a python dict mapping acquisition keys to their
`clean_pixels` tallies, as an insertion-ordered association list.  A list
arising from a python dict has pairwise-distinct keys. -/
abbrev MetadataDict : Type := List (AcqKey × Nat)

/-- Dict key lookup (`key in old` / `old[key]`). -/
def mlookup (k : AcqKey) : MetadataDict → Option Nat
  | [] => none
  | kv :: rest => if kv.1 = k then some kv.2 else mlookup k rest

/-- One iteration of the `combine_metadata` loop body: if the key is present,
add the incoming count into the stored entry; otherwise append the pair at
the end (python dict insertion appends). -/
def insert_or_add (old : MetadataDict) (k : AcqKey) (v : Nat) : MetadataDict :=
  if (mlookup k old).isSome then
    old.map (fun kv => if kv.1 = k then (kv.1, kv.2 + v) else kv)
  else old ++ [(k, v)]

/-- `combine_metadata` from both `cloud_coverage/models.py` and
`spectral_anomaly/models.py` (the two bodies are verbatim identical):
`for key in new: if key in old: old[key]['clean_pixels'] += ... else
old[key] = new[key]`, iterating over `new` in insertion order. -/
def combine_metadata : MetadataDict → MetadataDict → MetadataDict
  | old, [] => old
  | old, kv :: rest => combine_metadata (insert_or_add old kv.1 kv.2) rest

/-- Pointwise merge of two optional counts: both present adds, one present
keeps it. -/
def optAdd : Option Nat → Option Nat → Option Nat
  | some a, some b => some (a + b)
  | some a, none => some a
  | none, some b => some b
  | none, none => none

/-- The keys of a metadata dict, in order. -/
def mkeys (m : MetadataDict) : List AcqKey := m.map (fun kv => kv.1)

theorem mlookup_eq_none_of_not_mem (j : AcqKey) (m : MetadataDict)
    (h : j ∉ mkeys m) : mlookup j m = none := by
  induction m with
  | nil => rfl
  | cons kv rest ih =>
    have h1 : kv.1 ≠ j := fun he => h (by simp [mkeys, he])
    have h2 : j ∉ mkeys rest := fun hm => h (by simp [mkeys] at hm ⊢; exact Or.inr hm)
    simp [mlookup, h1, ih h2]

theorem mlookup_map_add (j k : AcqKey) (v : Nat) (old : MetadataDict) :
    mlookup j (old.map (fun kv => if kv.1 = k then (kv.1, kv.2 + v) else kv))
      = if j = k then (mlookup j old).map (fun a => a + v) else mlookup j old := by
  induction old with
  | nil => by_cases hjk : j = k <;> simp [mlookup, hjk]
  | cons kv rest ih =>
    simp only [List.map_cons]
    by_cases hk : kv.1 = k
    · simp only [if_pos hk]
      by_cases hkj : kv.1 = j
      · have hjk : j = k := hkj.symm.trans hk
        simp [mlookup, hkj, hjk]
      · have hjk : j ≠ k := fun h => hkj (hk.trans h.symm)
        simp [mlookup, hkj, hjk, ih]
    · simp only [if_neg hk]
      by_cases hkj : kv.1 = j
      · have hjk : j ≠ k := fun h => hk (hkj.trans h)
        simp [mlookup, hkj, hjk]
      · simp [mlookup, hkj, ih]

theorem mlookup_append_single (j : AcqKey) (old : MetadataDict) (k : AcqKey) (v : Nat) :
    mlookup j (old ++ [(k, v)])
      = match mlookup j old with
        | some a => some a
        | none => if k = j then some v else none := by
  induction old with
  | nil => simp [mlookup]
  | cons kv rest ih =>
    by_cases hj : kv.1 = j
    · simp [mlookup, hj]
    · simp only [List.cons_append, mlookup, if_neg hj]
      exact ih

theorem mlookup_insert_or_add (j k : AcqKey) (v : Nat) (old : MetadataDict) :
    mlookup j (insert_or_add old k v)
      = if j = k then
          (match mlookup k old with
           | some a => some (a + v)
           | none => some v)
        else mlookup j old := by
  unfold insert_or_add
  by_cases hpres : (mlookup k old).isSome
  · rw [if_pos hpres, mlookup_map_add]
    by_cases hjk : j = k
    · subst hjk
      rcases Option.isSome_iff_exists.mp hpres with ⟨a, ha⟩
      simp [ha]
    · simp [hjk]
  · rw [if_neg hpres, mlookup_append_single]
    have hnone : mlookup k old = none := Option.not_isSome_iff_eq_none.mp hpres
    by_cases hjk : j = k
    · subst hjk
      simp [hnone]
    · have : k ≠ j := fun h => hjk h.symm
      cases hm : mlookup j old <;> simp [hm, this, hjk]

/-- Lookup characterization of the fold: provided `new` has distinct keys
(it is a python dict), looking any key up in `combine_metadata old new` gives
the pointwise `optAdd` of the two lookups. -/
theorem mlookup_combine_metadata (new old : MetadataDict)
    (hnew : (mkeys new).Nodup) (j : AcqKey) :
    mlookup j (combine_metadata old new) = optAdd (mlookup j old) (mlookup j new) := by
  induction new generalizing old with
  | nil => cases hm : mlookup j old <;> simp [combine_metadata, mlookup, optAdd, hm]
  | cons kv rest ih =>
    have hnd : (mkeys rest).Nodup := (List.nodup_cons.mp hnew).2
    have hnotin : kv.1 ∉ mkeys rest := (List.nodup_cons.mp hnew).1
    rw [show combine_metadata old (kv :: rest)
          = combine_metadata (insert_or_add old kv.1 kv.2) rest from rfl,
        ih _ hnd, mlookup_insert_or_add]
    by_cases hjk : j = kv.1
    · have hrest : mlookup j rest = none :=
        mlookup_eq_none_of_not_mem j rest (hjk ▸ hnotin)
      rw [if_pos hjk, ← hjk, hrest,
          show mlookup j (kv :: rest) = some kv.2 by simp [mlookup, hjk.symm]]
      cases hm : mlookup j old <;> simp [optAdd, hm]
    · have hne : kv.1 ≠ j := fun h => hjk h.symm
      rw [if_neg hjk, show mlookup j (kv :: rest) = mlookup j rest by simp [mlookup, hne]]

/-- C4: `combine_metadata` merges by per-key addition — a key present in both
gets the sum, a key present in only one keeps its count, a key in neither is
absent — and, as a consequence, the merge is commutative up to key order:
both orders give the same key-to-count mapping. -/
theorem combine_metadata_spec (old new : MetadataDict)
    (hold : (mkeys old).Nodup) (hnew : (mkeys new).Nodup) :
    (∀ (j : AcqKey) (a b : Nat), mlookup j old = some a → mlookup j new = some b →
      mlookup j (combine_metadata old new) = some (a + b)) ∧
    (∀ j : AcqKey, mlookup j old = none →
      mlookup j (combine_metadata old new) = mlookup j new) ∧
    (∀ j : AcqKey, mlookup j new = none →
      mlookup j (combine_metadata old new) = mlookup j old) ∧
    (∀ j : AcqKey,
      mlookup j (combine_metadata old new) = mlookup j (combine_metadata new old)) := by
  refine ⟨?_, ?_, ?_, ?_⟩
  · intro j a b ha hb
    rw [mlookup_combine_metadata new old hnew j, ha, hb]
    rfl
  · intro j h
    rw [mlookup_combine_metadata new old hnew j, h]
    cases hm : mlookup j new <;> simp [optAdd, hm]
  · intro j h
    rw [mlookup_combine_metadata new old hnew j, h]
    cases hm : mlookup j old <;> simp [optAdd, hm]
  · intro j
    rw [mlookup_combine_metadata new old hnew j, mlookup_combine_metadata old new hold j]
    cases hm : mlookup j old <;> cases hn : mlookup j new <;>
      simp [optAdd, hm, hn, Nat.add_comm]

/-- Witness for C4: two concrete one-key dicts sharing the key
`2016-05-01T00:00:00.000` merge to the summed count in both orders. -/
theorem combine_metadata_spec_witness :
    mlookup ⟨2016, 5, 1, 0⟩
        (combine_metadata [(⟨2016, 5, 1, 0⟩, 7)] [(⟨2016, 5, 1, 0⟩, 4), (⟨2017, 1, 2, 0⟩, 9)])
      = some 11 := by
  have h := (combine_metadata_spec [(⟨2016, 5, 1, 0⟩, 7)]
      [(⟨2016, 5, 1, 0⟩, 4), (⟨2017, 1, 2, 0⟩, 9)]
      (by simp [mkeys]) (by simp [mkeys])).1 ⟨2016, 5, 1, 0⟩ 7 4 (by decide) (by decide)
  exact h

/-- Calendar-valid acquisition key fields. -/
def AcqKey.Valid (k : AcqKey) : Prop :=
  1 ≤ k.month ∧ k.month ≤ 12 ∧ 1 ≤ k.day ∧ k.day ≤ 31 ∧ k.ms_of_day < 86400000

/-- Sanity of the timestamp encoding: on calendar-valid keys, `toNat`
ordering is exactly the chronological (lexicographic) ordering python uses to
compare the datetime dictionary keys. -/
theorem AcqKey.toNat_lt_iff (a b : AcqKey) (ha : a.Valid) (hb : b.Valid) :
    a.toNat < b.toNat ↔
      (a.year < b.year ∨ (a.year = b.year ∧ (a.month < b.month ∨ (a.month = b.month ∧
        (a.day < b.day ∨ (a.day = b.day ∧ a.ms_of_day < b.ms_of_day)))))) := by
  obtain ⟨a1, a2, a3, a4, a5⟩ := ha
  obtain ⟨b1, b2, b3, b4, b5⟩ := hb
  unfold AcqKey.toNat
  omega

/-- Zero-padded two-digit field, as `strftime` pads `%m` and `%d`. -/
def pad2 (n : Nat) : String :=
  if n < 10 then "0" ++ toString n else toString n

/-- Zero-padded four-digit year, as `strftime` pads `%Y`. -/
def pad4 (n : Nat) : String :=
  if n < 10 then "000" ++ toString n
  else if n < 100 then "00" ++ toString n
  else if n < 1000 then "0" ++ toString n
  else toString n

/-- `date.strftime("%m/%d/%Y")`. -/
def AcqKey.format (k : AcqKey) : String :=
  pad2 k.month ++ "/" ++ pad2 k.day ++ "/" ++ pad4 k.year

/-- The ordering used by `dates.sort(reverse=True)`: descending timestamps. -/
def acq_desc (a b : AcqKey) : Prop := b.toNat ≤ a.toNat

instance : DecidableRel acq_desc := fun a b => Nat.decLe b.toNat a.toNat

instance : IsTotal AcqKey acq_desc :=
  ⟨fun a b => (Nat.le_total b.toNat a.toNat).imp id id⟩

instance : IsTrans AcqKey acq_desc :=
  ⟨fun _ _ _ h1 h2 => Nat.le_trans h2 h1⟩

/-- `dates = list(metadata_dict.keys()); dates.sort(reverse=True)`. -/
def dates_sorted (md : MetadataDict) : List AcqKey :=
  List.insertionSort acq_desc (mkeys md)

/-- The fields `metadata_from_dict` stores on the model.  The two count
lists are comma-joined strings exactly as in the source; the percentage list
is kept numeric because python's float-to-string rendering is the only part
not modelled (each element is the value `str` is applied to). -/
structure MetadataFields where
  total_scenes : Nat
  scenes_processed : Nat
  acquisition_list : String
  clean_pixels_per_acquisition : String
  clean_pixel_percentages_per_acquisition : List ℚ

/-- Per-acquisition clear-pixel counts in sorted-date order
(`metadata_dict[date]['clean_pixels']`; every sorted date is a dict key, so
the `getD 0` default is never taken). -/
def clean_counts (md : MetadataDict) : List Nat :=
  (dates_sorted md).map (fun d => (mlookup d md).getD 0)

/-- Per-acquisition percentages in sorted-date order:
`(clean_pixels * 100) / self.pixel_count`, against the task's overall
pixel count. -/
def clean_percentages (pixel_count : Nat) (md : MetadataDict) : List ℚ :=
  (dates_sorted md).map
    (fun d => (((mlookup d md).getD 0 : ℚ) * 100) / (pixel_count : ℚ))

/-- `metadata_from_dict` from both `cloud_coverage/models.py` and
`spectral_anomaly/models.py` (verbatim identical bodies): sort the dict keys
descending, store both scene counters as the key count, and emit the three
parallel per-acquisition lists. -/
def metadata_from_dict (pixel_count : Nat) (metadata_dict : MetadataDict) :
    MetadataFields :=
  ⟨(dates_sorted metadata_dict).length,
   (dates_sorted metadata_dict).length,
   String.intercalate "," ((dates_sorted metadata_dict).map AcqKey.format),
   String.intercalate "," ((clean_counts metadata_dict).map toString),
   clean_percentages pixel_count metadata_dict⟩

/-- C5: the emitted summary is sorted strictly descending by timestamp (the
sorted list is a permutation of the dict's keys), the three comma-joined
lists are index-aligned — the `i`-th date, count and percentage all come from
the same acquisition — dates are formatted `MM/DD/YYYY`, and each percentage
is that acquisition's `clean_pixels * 100` divided by the task's overall
`pixel_count`. -/
theorem metadata_from_dict_spec (pixel_count : Nat) (md : MetadataDict)
    (hnodup : ((mkeys md).map AcqKey.toNat).Nodup) :
    (dates_sorted md).Pairwise (fun a b => AcqKey.toNat b < AcqKey.toNat a) ∧
    (dates_sorted md).Perm (mkeys md) ∧
    (metadata_from_dict pixel_count md).acquisition_list
      = String.intercalate "," ((dates_sorted md).map AcqKey.format) ∧
    (metadata_from_dict pixel_count md).clean_pixels_per_acquisition
      = String.intercalate "," ((clean_counts md).map toString) ∧
    (∀ k : AcqKey,
      AcqKey.format k = pad2 k.month ++ "/" ++ pad2 k.day ++ "/" ++ pad4 k.year) ∧
    (∀ (i : Nat) (a : AcqKey), (dates_sorted md)[i]? = some a →
      ((dates_sorted md).map AcqKey.format)[i]? = some (AcqKey.format a) ∧
      (clean_counts md)[i]? = some ((mlookup a md).getD 0) ∧
      ((metadata_from_dict pixel_count md).clean_pixel_percentages_per_acquisition)[i]?
        = some ((((mlookup a md).getD 0 : ℚ) * 100) / (pixel_count : ℚ))) := by
  have hperm : (dates_sorted md).Perm (mkeys md) :=
    List.perm_insertionSort acq_desc (mkeys md)
  refine ⟨?_, hperm, rfl, rfl, fun k => rfl, ?_⟩
  · have hsorted : (dates_sorted md).Sorted acq_desc :=
      List.sorted_insertionSort acq_desc (mkeys md)
    have hnd : ((dates_sorted md).map AcqKey.toNat).Nodup :=
      ((hperm.map AcqKey.toNat).nodup_iff).mpr hnodup
    have hne : (dates_sorted md).Pairwise
        (fun a b => AcqKey.toNat a ≠ AcqKey.toNat b) :=
      List.pairwise_map.mp hnd
    exact (hsorted.and hne).imp
      (fun h => Nat.lt_of_le_of_ne h.1 (Ne.symm h.2))
  · intro i a ha
    refine ⟨?_, ?_, ?_⟩
    · rw [List.getElem?_map, ha]
      rfl
    · rw [show clean_counts md
            = (dates_sorted md).map (fun d => (mlookup d md).getD 0) from rfl,
          List.getElem?_map, ha]
      rfl
    · rw [show (metadata_from_dict pixel_count md).clean_pixel_percentages_per_acquisition
            = (dates_sorted md).map
                (fun d => (((mlookup d md).getD 0 : ℚ) * 100) / (pixel_count : ℚ)) from rfl,
          List.getElem?_map, ha]
      rfl

/-- Witness for C5 at a concrete two-acquisition dict. -/
theorem metadata_from_dict_spec_witness :
    (dates_sorted [(⟨2016, 5, 1, 0⟩, 100), (⟨2017, 11, 20, 500⟩, 40)]).Pairwise
      (fun a b => AcqKey.toNat b < AcqKey.toNat a) :=
  (metadata_from_dict_spec 200 [(⟨2016, 5, 1, 0⟩, 100), (⟨2017, 11, 20, 500⟩, 40)]
    (by decide)).1

/-- C10: after `metadata_from_dict`, `total_scenes` and `scenes_processed`
both equal the number of distinct acquisition keys of the dict (its keys are
pairwise distinct), hence always equal each other. -/
theorem metadata_from_dict_scene_counts (pixel_count : Nat) (md : MetadataDict)
    (hnodup : (mkeys md).Nodup) :
    (metadata_from_dict pixel_count md).total_scenes = ((mkeys md).dedup).length ∧
    (metadata_from_dict pixel_count md).scenes_processed
      = (metadata_from_dict pixel_count md).total_scenes := by
  constructor
  · have h1 : (metadata_from_dict pixel_count md).total_scenes
        = (dates_sorted md).length := rfl
    have hperm : (dates_sorted md).Perm (mkeys md) :=
      List.perm_insertionSort acq_desc (mkeys md)
    rw [h1, hperm.length_eq, List.dedup_eq_self.mpr hnodup]
  · rfl

/-- Witness for C10 at a concrete two-acquisition dict. -/
theorem metadata_from_dict_scene_counts_witness :
    (metadata_from_dict 200 [(⟨2016, 5, 1, 0⟩, 100), (⟨2017, 11, 20, 500⟩, 40)]).total_scenes
      = ((mkeys [(⟨2016, 5, 1, 0⟩, 100), (⟨2017, 11, 20, 500⟩, 40)]).dedup).length :=
  (metadata_from_dict_scene_counts 200
    [(⟨2016, 5, 1, 0⟩, 100), (⟨2017, 11, 20, 500⟩, 40)] (by decide)).1

/-- The part of the final composited dataset that
`final_metadata_from_dataset` reads: the two spatial coordinate arrays and
the values of the first data variable (first band), flattened. -/
structure FinalDataset where
  latitude : List ℚ
  longitude : List ℚ
  first_band : List Int

/-- The fields `final_metadata_from_dataset` stores. -/
structure FinalSummary where
  pixel_count : Nat
  clean_pixel_count : Nat
  percentage_clean_pixels : Option ℚ

/-- `final_metadata_from_dataset` from `cloud_coverage/models.py`:
`pixel_count = len(latitude) * len(longitude)`,
`clean_pixel_count = np.sum(first_band != -9999)`,
`percentage_clean_pixels = clean_pixel_count / pixel_count * 100` (numpy
yields an undefined float, not an exception, when `pixel_count` is zero;
modelled `none`). -/
def final_metadata_from_dataset (ds : FinalDataset) : FinalSummary :=
  let pc := ds.latitude.length * ds.longitude.length
  let cc := ds.first_band.countP (fun v => decide (v ≠ -9999))
  ⟨pc, cc, if pc = 0 then none else some (((cc : ℚ) / (pc : ℚ)) * 100)⟩

/-- C6: `pixel_count` is the latitude extent times the longitude extent,
`clean_pixel_count` counts first-band values different from the `-9999`
sentinel, `percentage_clean_pixels` is their ratio times 100, and a raster
made entirely of the sentinel yields count 0 and percentage 0. -/
theorem final_metadata_from_dataset_spec (ds : FinalDataset) :
    (final_metadata_from_dataset ds).pixel_count
      = ds.latitude.length * ds.longitude.length ∧
    (final_metadata_from_dataset ds).clean_pixel_count
      = ds.first_band.countP (fun v => decide (v ≠ -9999)) ∧
    ((final_metadata_from_dataset ds).pixel_count ≠ 0 →
      (final_metadata_from_dataset ds).percentage_clean_pixels
        = some ((((final_metadata_from_dataset ds).clean_pixel_count : ℚ)
                  / ((final_metadata_from_dataset ds).pixel_count : ℚ)) * 100)) ∧
    ((∀ v ∈ ds.first_band, v = -9999) →
      (final_metadata_from_dataset ds).clean_pixel_count = 0 ∧
      ((final_metadata_from_dataset ds).pixel_count ≠ 0 →
        (final_metadata_from_dataset ds).percentage_clean_pixels = some 0)) := by
  refine ⟨rfl, rfl, ?_, ?_⟩
  · intro h
    simp only [final_metadata_from_dataset] at h ⊢
    rw [if_neg h]
  · intro hall
    have hcc : ds.first_band.countP (fun v => decide (v ≠ -9999)) = 0 := by
      rw [List.countP_eq_zero]
      intro v hv
      simp [hall v hv]
    refine ⟨hcc, fun h => ?_⟩
    simp only [final_metadata_from_dataset] at h ⊢
    rw [if_neg h, hcc]
    norm_num

/-- Witness for C6: a 2×2 raster entirely of the sentinel has clean count 0
and percentage 0. -/
theorem final_metadata_from_dataset_spec_witness :
    (final_metadata_from_dataset
        ⟨[0, 1], [0, 1], [-9999, -9999, -9999, -9999]⟩).clean_pixel_count = 0 ∧
    (final_metadata_from_dataset
        ⟨[0, 1], [0, 1], [-9999, -9999, -9999, -9999]⟩).percentage_clean_pixels
      = some 0 := by
  have h := (final_metadata_from_dataset_spec
      ⟨[0, 1], [0, 1], [-9999, -9999, -9999, -9999]⟩).2.2.2 (by decide)
  exact ⟨h.1, h.2 (by decide)⟩

end CloudCoverage

namespace SpectralAnomaly

/-- The compositing routines the spectral-anomaly dispatch can return, one
constructor per `utils.data_cube_utilities.dc_mosaic` function referenced by
`spectral_anomaly/models.py`. -/
inductive MosaicFunc where
  | create_mosaic
  | create_max_ndvi_mosaic
  | create_min_ndvi_mosaic
  | create_median_mosaic
deriving DecidableEq

/-- The `processing_methods` dict literal of
`SpectralAnomaly.Query.get_processing_method`: note that both `most_recent`
and `least_recent` map to `create_mosaic` (the iteration direction from
`get_reverse_time` decides which end wins). -/
def processing_methods : List (String × MosaicFunc) :=
  [("most_recent", MosaicFunc.create_mosaic),
   ("least_recent", MosaicFunc.create_mosaic),
   ("max_ndvi", MosaicFunc.create_max_ndvi_mosaic),
   ("min_ndvi", MosaicFunc.create_min_ndvi_mosaic),
   ("median_pixel", MosaicFunc.create_median_mosaic)]

/-- `processing_methods.get(self.compositor.id, create_mosaic)`: a total
lookup defaulting to `create_mosaic`. -/
def get_processing_method (compositor_id : String) : MosaicFunc :=
  ((processing_methods.find? (fun kv => kv.1 == compositor_id)).map
    (fun kv => kv.2)).getD MosaicFunc.create_mosaic

/-- `SpectralAnomaly.Query.get_reverse_time`:
`self.compositor.id == "most_recent"`. -/
def get_reverse_time (compositor_id : String) : Bool :=
  compositor_id == "most_recent"

/-- `SpectralAnomaly.Query.get_iterative`:
`self.compositor.id != "median_pixel"`. -/
def get_iterative (compositor_id : String) : Bool :=
  compositor_id != "median_pixel"

/-- C8: the dispatch is total — each of the five known modes yields its
table entry (`least_recent` shares `create_mosaic` with `most_recent` by
design) and every unknown mode string falls back to `create_mosaic`, never
an error. -/
theorem get_processing_method_spec :
    get_processing_method "most_recent" = MosaicFunc.create_mosaic ∧
    get_processing_method "least_recent" = MosaicFunc.create_mosaic ∧
    get_processing_method "max_ndvi" = MosaicFunc.create_max_ndvi_mosaic ∧
    get_processing_method "min_ndvi" = MosaicFunc.create_min_ndvi_mosaic ∧
    get_processing_method "median_pixel" = MosaicFunc.create_median_mosaic ∧
    (∀ s : String,
      s ∉ ["most_recent", "least_recent", "max_ndvi", "min_ndvi", "median_pixel"] →
      get_processing_method s = MosaicFunc.create_mosaic) := by
  refine ⟨by decide, by decide, by decide, by decide, by decide, ?_⟩
  intro s hs
  simp only [List.mem_cons, List.not_mem_nil, or_false, not_or] at hs
  obtain ⟨h1, h2, h3, h4, h5⟩ := hs
  have e1 : (("most_recent" : String) == s) = false :=
    beq_eq_false_iff_ne.mpr (Ne.symm h1)
  have e2 : (("least_recent" : String) == s) = false :=
    beq_eq_false_iff_ne.mpr (Ne.symm h2)
  have e3 : (("max_ndvi" : String) == s) = false :=
    beq_eq_false_iff_ne.mpr (Ne.symm h3)
  have e4 : (("min_ndvi" : String) == s) = false :=
    beq_eq_false_iff_ne.mpr (Ne.symm h4)
  have e5 : (("median_pixel" : String) == s) = false :=
    beq_eq_false_iff_ne.mpr (Ne.symm h5)
  simp [get_processing_method, processing_methods, List.find?, e1, e2, e3, e4, e5]

/-- Witness for C8: an unknown mode string resolves to `create_mosaic`. -/
theorem get_processing_method_spec_witness :
    get_processing_method "swir_composite" = MosaicFunc.create_mosaic :=
  get_processing_method_spec.2.2.2.2.2 "swir_composite" (by decide)

/-- C9: reversed (most-recent-first) time iteration is selected exactly when
the `most_recent` compositing rule is: `get_reverse_time` is `true` iff the
compositor id is `"most_recent"`.  The flag and the mode therefore never
disagree. -/
theorem get_reverse_time_iff_most_recent (compositor_id : String) :
    get_reverse_time compositor_id = true ↔ compositor_id = "most_recent" := by
  simp [get_reverse_time]

end SpectralAnomaly
